import Mathlib

/-!
Verification development for the connector-pr-dashboard backend
(`src/backend/src/index.ts`): a shallow embedding of the timeline
reconstruction and validation engine, the content classifier, the
analysis-strategy selector and the derived-artifact cache, together
with theorems settling the frozen claims about them.

Modelling conventions:
* Timestamps are ISO-8601 strings in the source; every use parses them
  with `new Date(...)` and compares/subtracts the underlying epoch
  milliseconds, so we model a timestamp as an integer (milliseconds).
  For ISO strings in a fixed format, lexicographic string order agrees
  with chronological order, which justifies modelling the one
  lexicographic maximum (in `generateDataVersionHash`) as an integer
  maximum.
* JavaScript numbers are IEEE doubles; durations here are exact
  rationals.  No claim depends on floating-point rounding.
* Mutation of the caller's `prReviews` array by `Array.prototype.sort`
  is modelled by explicit state passing: the timeline result carries a
  `reviews_after` field holding the caller-visible contents of the
  array after the call.
* Wall-clock reads (`new Date()`) become an explicit `now : ℤ`
  parameter; the global in-memory store becomes an explicit
  `DataStore` parameter.
-/

namespace CPD

/-! ## Data model (interfaces in src/backend/src/index.ts) -/

/-- `status: 'open' | 'merged' | 'closed'` (`open` is a Lean keyword, hence `open_`). -/
inductive PRStatus where
  | open_
  | merged
  | closed
  deriving DecidableEq

/-- `review_state: 'commented' | 'approved' | 'changes_requested'`. -/
inductive ReviewState where
  | commented
  | approved
  | changes_requested
  deriving DecidableEq

/-- `comment_type: 'review' | 'issue' | 'general'`. -/
inductive CommentType where
  | review
  | issue
  | general
  deriving DecidableEq

/-- interface PullRequest (fields used by the verified functions; the
presentation-only fields `labels`, `reviewers`, `requested_reviewers`,
`pending_reviewers`, `url`, `is_connector_integration`,
`current_approvals_count`, `id` are not consumed by the timeline
engine, the classifier, or the cache and are omitted). -/
structure PullRequest where
  github_pr_number : ℤ
  title : String
  author : String
  created_at : ℤ
  updated_at : ℤ
  merged_at : Option ℤ
  status : PRStatus
  deriving DecidableEq

/-- interface Review. -/
structure Review where
  id : ℤ
  pr_id : ℤ
  reviewer_username : String
  review_state : ReviewState
  submitted_at : ℤ
  is_latest_review : Bool
  content : Option String
  deriving DecidableEq

/-- interface Comment (code-context fields omitted: unused by the
verified functions). -/
structure Comment where
  id : ℤ
  pr_id : ℤ
  github_comment_id : ℤ
  author : String
  content : String
  created_at : ℤ
  is_resolved : Bool
  comment_type : CommentType
  deriving DecidableEq

/-! ## Content classifier (`BOT_PATTERNS`, `AUTOMATED_CONTENT_PATTERNS`,
`isHumanComment`, `isHumanReview`) -/

/-- A `BOT_PATTERNS` entry is either a case-insensitive end-anchored
regular expression (`/\[bot\]$/i`, `/bot$/i`, and the `-bot` suffix
variant — each is a literal-suffix match) or a plain string compared
case-insensitively. -/
inductive BotPattern where
  | regexEndsWith (suffix : String)
  | exactName (name : String)
  deriving DecidableEq

/-- Constant `BOT_PATTERNS` from the source. -/
def BOT_PATTERNS : List BotPattern :=
  [ .regexEndsWith "[bot]"
  , .regexEndsWith "bot"
  , .regexEndsWith "-bot"
  , .exactName "semanticdiff-com[bot]"
  , .exactName "coderabbitai[bot]"
  , .exactName "dependabot[bot]"
  , .exactName "github-actions[bot]"
  , .exactName "renovate[bot]"
  , .exactName "codecov[bot]"
  , .exactName "sonarcloud[bot]"
  , .exactName "snyk-bot"
  , .exactName "whitesource-bolt[bot]"
  , .exactName "deepsource-autofix[bot]"
  , .exactName "gitguardian[bot]"
  , .exactName "circleci-bot"
  , .exactName "travis-ci"
  , .exactName "jenkins-bot"
  , .exactName "azure-pipelines[bot]"
  , .exactName "lgtm-com[bot]"
  , .exactName "codeclimate[bot]"
  , .exactName "houndci-bot"
  , .exactName "vercel[bot]"
  , .exactName "netlify[bot]"
  , .exactName "heroku[bot]" ]

/-- ASCII lowering of one character code, modelling
`String.prototype.toLowerCase` on the ASCII-only patterns involved
(non-ASCII characters, e.g. emoji, are unchanged). -/
def lowerCode (c : Char) : ℕ :=
  if 65 ≤ c.toNat ∧ c.toNat ≤ 90 then c.toNat + 32 else c.toNat

/-- The lowercased character codes of a string. -/
def lowerCodes (s : String) : List ℕ := s.toList.map lowerCode

/-- `a.toLowerCase() === b.toLowerCase()`. -/
def ciEquals (a b : String) : Bool := lowerCodes a == lowerCodes b

/-- A case-insensitive end-anchored literal match, modelling
`/suffix$/i.test(s)`. -/
def ciEndsWith (s suffix : String) : Bool :=
  List.isSuffixOf (lowerCodes suffix) (lowerCodes s)

/-- The whitespace class `\s` (the ASCII part, which is all the
verified inputs use). -/
def isJsWhitespace (c : Char) : Bool :=
  c.toNat = 32 || c.toNat = 9 || c.toNat = 10 ||
    c.toNat = 13 || c.toNat = 11 || c.toNat = 12

/-- `String.prototype.trim` on the character list of a body. -/
def trimChars (l : List Char) : List Char :=
  ((l.dropWhile isJsWhitespace).reverse.dropWhile isJsWhitespace).reverse

/-- The matcher inside `isHumanComment`: a string pattern is an exact
case-insensitive author match, a regex pattern is `pattern.test(author)`
(here: a case-insensitive suffix test). -/
def botPatternMatches (author : String) : BotPattern → Bool
  | .regexEndsWith suffix => ciEndsWith author suffix
  | .exactName n => ciEquals author n

/-- Case-insensitive start-anchored literal match on a character list,
modelling `/^p.../i.test(s)` for a pattern with no metacharacters. -/
def ciStartsWith (body : List Char) (p : String) : Bool :=
  List.isPrefixOf (lowerCodes p) (body.map lowerCode)

/-- Models `/^Review changes with\s+SemanticDiff/i`: the literal
leading words, one or more whitespace characters, then the second
literal, all case-insensitive. -/
def matchesSemanticDiff (body : List Char) : Bool :=
  let t := body.map lowerCode
  let p := lowerCodes "review changes with"
  if List.isPrefixOf p t then
    let rest := t.drop p.length
    let ws := rest.takeWhile fun n =>
      n = 32 || n = 9 || n = 10 || n = 13 || n = 11 || n = 12
    decide (0 < ws.length) &&
      List.isPrefixOf (lowerCodes "SemanticDiff") (rest.drop ws.length)
  else false

/-- The literal-prefix entries of `AUTOMATED_CONTENT_PATTERNS` (all the
source patterns are `^literal` anchored, case-insensitive, except the
SemanticDiff one which has an inner `\s+` and is handled by
`matchesSemanticDiff`). -/
def AUTOMATED_CONTENT_PATTERNS : List String :=
  [ "Changed Files"
  , "Coverage report"
  , "Build Status:"
  , "Deploy Preview"
  , "This pull request"
  , "Automated merge"
  , "**Summary** by CodeRabbit"
  , "## Summary by Coderabbit"
  , "## Summary by CodeRabbit"
  , "🤖 This is an automated"
  , "Dependency update"
  , "Security update"
  , "Auto-generated"
  , "Automatically generated" ]

/-- `AUTOMATED_CONTENT_PATTERNS.some(p => p.test(content.trim()))`. -/
def automatedContentMatches (body : List Char) : Bool :=
  matchesSemanticDiff body || AUTOMATED_CONTENT_PATTERNS.any (ciStartsWith body)

/-- Status-emoji glyphs of `/^(✅|❌|🔄|⚠️|🚀|📦|🔧)\s/`. -/
def statusEmojiList : List String := ["✅", "❌", "🔄", "⚠️", "🚀", "📦", "🔧"]

/-- Models `/^(✅|❌|🔄|⚠️|🚀|📦|🔧)\s/.test(content)`: one of the
glyphs at the start, followed by a whitespace character. -/
def statusEmojiStart (s : List Char) : Bool :=
  statusEmojiList.any fun e =>
    List.isPrefixOf e.toList s &&
      match s.drop e.toList.length with
      | c :: _ => isJsWhitespace c
      | [] => false

/-- Function `isHumanComment`.  Note that the automated-content
patterns are tested against `comment.content.trim()`, while the length
check uses the raw `comment.content.length` and the emoji check uses
the raw `comment.content`.  (JavaScript string length counts UTF-16
code units; the character count used here agrees with it on all
verified inputs.) -/
def isHumanComment (c : Comment) : Bool :=
  if BOT_PATTERNS.any (botPatternMatches c.author) then false
  else if automatedContentMatches (trimChars c.content.toList) then false
  else if c.content.length < 10 then false
  else if statusEmojiStart c.content.toList then false
  else true

/-- Function `isHumanReview`: adapts the review to the comment shape
(`content: review.content || ''`) and defers to `isHumanComment`. -/
def isHumanReview (r : Review) : Bool :=
  isHumanComment
    { author := r.reviewer_username
    , content := r.content.getD ""
    , id := r.id
    , pr_id := r.pr_id
    , github_comment_id := r.id
    , created_at := r.submitted_at
    , is_resolved := false
    , comment_type := .review }

/-! ## Analysis-strategy selector (`determineAnalysisStrategy`) -/

/-- `type: 'human_discussion' | 'code_only' | 'hybrid'`. -/
inductive StrategyType where
  | human_discussion
  | code_only
  | hybrid
  deriving DecidableEq

/-- `'high' | 'medium' | 'low'` (also used for `data_quality`). -/
inductive ConfidenceLevel where
  | high
  | medium
  | low
  deriving DecidableEq

/-- interface PRAnalysisStrategy. -/
structure PRAnalysisStrategy where
  type : StrategyType
  human_comments : ℕ
  bot_comments : ℕ
  human_reviews : ℕ
  bot_reviews : ℕ
  confidence_level : ConfidenceLevel
  deriving DecidableEq

/-- Function `determineAnalysisStrategy`. -/
def determineAnalysisStrategy (comments : List Comment) (reviews : List Review) :
    PRAnalysisStrategy :=
  let humanComments := comments.filter isHumanComment
  let botComments := comments.filter fun c => !(isHumanComment c)
  let humanReviews := reviews.filter isHumanReview
  let botReviews := reviews.filter fun r => !(isHumanReview r)
  let totalHumanInteractions := humanComments.length + humanReviews.length
  if totalHumanInteractions = 0 then
    { type := .code_only
    , human_comments := humanComments.length
    , bot_comments := botComments.length
    , human_reviews := humanReviews.length
    , bot_reviews := botReviews.length
    , confidence_level := .medium }
  else if 5 ≤ totalHumanInteractions ∨ 2 ≤ humanReviews.length then
    { type := .human_discussion
    , human_comments := humanComments.length
    , bot_comments := botComments.length
    , human_reviews := humanReviews.length
    , bot_reviews := botReviews.length
    , confidence_level := .high }
  else
    { type := .hybrid
    , human_comments := humanComments.length
    , bot_comments := botComments.length
    , human_reviews := humanReviews.length
    , bot_reviews := botReviews.length
    , confidence_level := .medium }

/-! ## Duration arithmetic (`calculateDaysDiff`) -/

/-- `Math.round`: round half toward positive infinity. -/
def jsRound (x : ℚ) : ℤ := ⌊x + 1 / 2⌋

/-- Function `calculateDaysDiff`:
`Math.round((end - start) / (1000*60*60*24) * 10) / 10`. -/
def calculateDaysDiff (startDate endDate : ℤ) : ℚ :=
  (jsRound (((endDate : ℚ) - (startDate : ℚ)) / 86400000 * 10) : ℚ) / 10

/-! ## Timeline data structures -/

/-- The five stage names of `PRTimelineStage.stage`. -/
inductive StageName where
  | pr_raised
  | first_review
  | comments_fixed
  | approved
  | merged
  deriving DecidableEq

/-- interface PRTimelineStage. -/
structure PRTimelineStage where
  stage : StageName
  timestamp : ℤ
  duration_from_previous : Option ℚ := none
  deriving DecidableEq

/-- The six event names of `TimelineEvent.event_type`. -/
inductive EventType where
  | pr_created
  | first_review
  | changes_requested
  | changes_addressed
  | approved
  | merged
  deriving DecidableEq

/-- interface TimelineEvent. -/
structure TimelineEvent where
  event_type : EventType
  timestamp : ℤ
  actor : String
  details : Option String := none
  deriving DecidableEq

/-- interface ReviewCycle. -/
structure ReviewCycle where
  cycle_number : ℕ
  changes_requested_at : ℤ
  changes_addressed_at : Option ℤ
  duration_days : ℚ
  reviewer : String
  deriving DecidableEq

/-- The `stage_durations` record of interface PRTimeline. -/
structure StageDurations where
  pr_raised_to_first_review : ℚ
  first_review_to_comments_fixed : ℚ
  comments_fixed_to_approved : ℚ
  approved_to_merged : ℚ
  ongoing_time : ℚ
  total_review_time : ℚ
  deriving DecidableEq

/-- One entry of the `milestones` record. -/
structure Milestone where
  timestamp : Option ℤ
  achieved : Bool
  deriving DecidableEq

/-- The `milestones` record of interface PRTimeline. -/
structure Milestones where
  pr_created : Milestone
  first_review : Milestone
  approved : Milestone
  merged : Milestone
  deriving DecidableEq

/-- interface PRTimelineValidation. -/
structure PRTimelineValidation where
  is_valid : Bool
  confidence_score : ℚ
  issues : List String
  data_quality : ConfidenceLevel
  deriving DecidableEq

/-- interface EnhancedPRTimeline.  The extra `reviews_after` field
models the caller-visible contents of the `prReviews` array after the
call (`Array.prototype.sort` sorts the caller's array in place). -/
structure EnhancedPRTimeline where
  pr_number : ℤ
  pr_title : String
  pr_author : String
  total_duration : ℚ
  stages : List PRTimelineStage
  is_completed : Bool
  stage_durations : StageDurations
  milestones : Milestones
  validation : PRTimelineValidation
  review_cycles : List ReviewCycle
  actual_events : List TimelineEvent
  reviews_after : List Review
  deriving DecidableEq

/-! ## Timeline reconstructor (`calculateEnhancedPRTimeline`,
`findChangesAddressedTime`) -/

/-- Function `findChangesAddressedTime`: the first review strictly
after the request whose state is approved or commented; otherwise the
PR's `updated_at`, but only if strictly after the request; otherwise
null. -/
def findChangesAddressedTime (pr : PullRequest) (changesRequestedAt : ℤ)
    (allReviews : List Review) : Option ℤ :=
  let subsequentReviews := allReviews.filter fun r =>
    decide (changesRequestedAt < r.submitted_at) &&
      (r.review_state == ReviewState.approved || r.review_state == ReviewState.commented)
  match subsequentReviews with
  | r :: _ => some r.submitted_at
  | [] => if changesRequestedAt < pr.updated_at then some pr.updated_at else none

/-- The sort order used by
`prReviews.sort((a, b) => new Date(a.submitted_at).getTime() - new Date(b.submitted_at).getTime())`:
ascending submission time.  Modern `Array.prototype.sort` is stable, as
is `List.insertionSort`. -/
def reviewOrder (a b : Review) : Prop := a.submitted_at ≤ b.submitted_at

instance : DecidableRel reviewOrder := fun a b =>
  inferInstanceAs (Decidable (a.submitted_at ≤ b.submitted_at))

instance : IsTotal Review reviewOrder :=
  ⟨fun a b => le_total a.submitted_at b.submitted_at⟩

instance : IsTrans Review reviewOrder :=
  ⟨fun _ _ _ h1 h2 => le_trans h1 h2⟩

/-- The mutable locals of the review walk in
`calculateEnhancedPRTimeline` (stages, events, the running stage
duration, `firstReviewFound`, `currentCycle`,
`lastChangesRequestedTime`, `lastApprovalTime`, `reviewCycles`). -/
structure WalkState where
  stages : List PRTimelineStage
  events : List TimelineEvent
  pr_raised_to_first_review : ℚ
  firstReviewFound : Bool
  currentCycle : ℕ
  lastChangesRequestedTime : Option ℤ
  lastApprovalTime : Option ℤ
  reviewCycles : List ReviewCycle

/-- Render a review state as the string stored in the first-review
event's `details`. -/
def reviewStateStr : ReviewState → String
  | .commented => "commented"
  | .approved => "approved"
  | .changes_requested => "changes_requested"

/-- First-review detection block of the review walk. -/
def stepFirstReview (pr : PullRequest) (st : WalkState) (review : Review) : WalkState :=
  if !st.firstReviewFound then
    let duration := calculateDaysDiff pr.created_at review.submitted_at
    { st with
      firstReviewFound := true
      pr_raised_to_first_review := duration
      events := st.events ++
        [⟨.first_review, review.submitted_at, review.reviewer_username,
          some (reviewStateStr review.review_state)⟩]
      stages := st.stages ++ [⟨.first_review, review.submitted_at, some duration⟩] }
  else st

/-- Changes-requested block of the review walk: open a new review
cycle and, when a resolution time is found, emit a `changes_addressed`
event. -/
def stepChangesRequested (pr : PullRequest) (sortedReviews : List Review)
    (st : WalkState) (review : Review) : WalkState :=
  if review.review_state = .changes_requested then
    let changesAddressedTime := findChangesAddressedTime pr review.submitted_at sortedReviews
    let cycleNumber := st.currentCycle + 1
    let st :=
      { st with
        currentCycle := cycleNumber
        lastChangesRequestedTime := some review.submitted_at
        events := st.events ++
          [⟨.changes_requested, review.submitted_at, review.reviewer_username, none⟩]
        reviewCycles := st.reviewCycles ++
          [{ cycle_number := cycleNumber
           , changes_requested_at := review.submitted_at
           , changes_addressed_at := changesAddressedTime
           , duration_days :=
               match changesAddressedTime with
               | some t => calculateDaysDiff review.submitted_at t
               | none => 0
           , reviewer := review.reviewer_username }] }
    match changesAddressedTime with
    | some t => { st with events := st.events ++ [⟨.changes_addressed, t, pr.author, none⟩] }
    | none => st
  else st

/-- Approval block of the review walk. -/
def stepApproved (st : WalkState) (review : Review) : WalkState :=
  if review.review_state = .approved then
    { st with
      lastApprovalTime := some review.submitted_at
      events := st.events ++
        [⟨.approved, review.submitted_at, review.reviewer_username, none⟩] }
  else st

/-- One iteration of `for (const review of sortedReviews)`. -/
def processReview (pr : PullRequest) (sortedReviews : List Review)
    (st : WalkState) (review : Review) : WalkState :=
  stepApproved (stepChangesRequested pr sortedReviews (stepFirstReview pr st review) review) review

/-- The locals of `calculateEnhancedPRTimeline` as initialized before
the review loop: the `pr_created` event and the `pr_raised` stage are
already recorded. -/
def initWalkState (pr : PullRequest) : WalkState :=
  { stages := [⟨.pr_raised, pr.created_at, none⟩]
  , events := [⟨.pr_created, pr.created_at, pr.author, none⟩]
  , pr_raised_to_first_review := 0
  , firstReviewFound := false
  , currentCycle := 0
  , lastChangesRequestedTime := none
  , lastApprovalTime := none
  , reviewCycles := [] }

/-- The review walk: the initial `pr_created` event / `pr_raised`
stage followed by the fold over the sorted reviews. -/
def walkReviews (pr : PullRequest) (sortedReviews : List Review) : WalkState :=
  sortedReviews.foldl (processReview pr sortedReviews) (initWalkState pr)

/-- `stages.find(s => s.stage === name)`. -/
def findStage (stages : List PRTimelineStage) (name : StageName) : Option PRTimelineStage :=
  stages.find? fun s => s.stage == name

/-- The comments-fixed block after the walk (`if (lastChangesRequestedTime
&& reviewCycles.length > 0) ...`).  Returns the updated stages, the
`first_review_to_comments_fixed` duration, the issues list and the
confidence score (the function-level `issues` / `confidenceScore`
locals are only touched in this block: they start at `[]` / `1.0`). -/
def commentsFixedResult (pr : PullRequest) (w : WalkState) :
    List PRTimelineStage × ℚ × List String × ℚ :=
  match w.lastChangesRequestedTime, w.reviewCycles.getLast? with
  | some _, some lastCycle =>
    match lastCycle.changes_addressed_at with
    | some commentsFixedTime =>
      let baseTime := ((findStage w.stages .first_review).map (·.timestamp)).getD pr.created_at
      let duration := calculateDaysDiff baseTime commentsFixedTime
      (w.stages ++ [⟨.comments_fixed, commentsFixedTime, some duration⟩], duration, [], 1)
    | none =>
      (w.stages, 0, ["Changes were requested but no clear resolution detected"], 1 - 2/10)
  | _, _ => (w.stages, 0, [], 1)

/-- The approval-stage block: anchor to `comments_fixed`, else
`first_review`, else PR creation; the stage is pushed only when not
already present (which is always the case here), while the
`comments_fixed_to_approved` duration is set regardless. -/
def approvalResult (pr : PullRequest) (w : WalkState)
    (stages2 : List PRTimelineStage) : List PRTimelineStage × ℚ :=
  match w.lastApprovalTime with
  | some lastApproval =>
    let baseTime :=
      ((findStage stages2 .comments_fixed).map (·.timestamp)).getD
        (((findStage stages2 .first_review).map (·.timestamp)).getD pr.created_at)
    let duration := calculateDaysDiff baseTime lastApproval
    if (findStage stages2 .approved).isNone then
      (stages2 ++ [⟨.approved, lastApproval, some duration⟩], duration)
    else (stages2, duration)
  | none => (stages2, 0)

/-- The merge-stage block: anchor to `approved`, else `comments_fixed`,
else `first_review`, else PR creation. -/
def mergeResult (pr : PullRequest) (events : List TimelineEvent)
    (stages3 : List PRTimelineStage) : List PRTimelineStage × List TimelineEvent × ℚ :=
  match pr.merged_at with
  | some mergedAt =>
    let baseTime :=
      ((findStage stages3 .approved).map (·.timestamp)).getD
        (((findStage stages3 .comments_fixed).map (·.timestamp)).getD
          (((findStage stages3 .first_review).map (·.timestamp)).getD pr.created_at))
    let duration := calculateDaysDiff baseTime mergedAt
    (stages3 ++ [⟨.merged, mergedAt, some duration⟩],
     events ++ [⟨.merged, mergedAt, "system", none⟩], duration)
  | none => (stages3, events, 0)

/-! ## Timeline validator (`validateTimeline`) -/

/-- Stage names as rendered into issue strings. -/
def stageNameStr : StageName → String
  | .pr_raised => "pr_raised"
  | .first_review => "first_review"
  | .comments_fixed => "comments_fixed"
  | .approved => "approved"
  | .merged => "merged"

/-- Decimal rendering of the one-decimal-place rationals produced by
`calculateDaysDiff`, approximating JavaScript number-to-string
conversion inside template literals.  No verified property inspects
the text of the validator-generated issue strings. -/
def ratToDecimalString (q : ℚ) : String :=
  if q.den = 1 then toString q.num
  else if (q * 10).den = 1 then
    let n := (q * 10).num
    (if n < 0 then "-" else "") ++
      toString (n.natAbs / 10) ++ "." ++ toString (n.natAbs % 10)
  else toString q.num ++ "/" ++ toString q.den

/-- One iteration of the chronological-order check (`for (let i = 1; i
< stages.length; i++)`), acting on an adjacent pair (previous,
current): subtract 0.3 when the current stage's timestamp precedes the
previous one's. -/
def chronoStep (acc : List String × ℚ) (p : PRTimelineStage × PRTimelineStage) :
    List String × ℚ :=
  if p.2.timestamp < p.1.timestamp then
    (acc.1 ++ ["Stage " ++ stageNameStr p.2.stage ++ " occurs before " ++ stageNameStr p.1.stage],
     acc.2 - 3/10)
  else acc

/-- One iteration of the duration check (`for (const stage of
stages)`).  JavaScript truthiness: `stage.duration_from_previous &&
...` skips both checks when the duration is absent or exactly 0. -/
def durationStep (acc : List String × ℚ) (s : PRTimelineStage) : List String × ℚ :=
  match s.duration_from_previous with
  | none => acc
  | some d =>
    if d = 0 then acc
    else
      let acc :=
        if d < 0 then
          (acc.1 ++ ["Negative duration detected for stage " ++ stageNameStr s.stage],
           acc.2 - 2/10)
        else acc
      if 30 < d then
        (acc.1 ++ ["Unusually long duration (" ++ ratToDecimalString d ++
          " days) for stage " ++ stageNameStr s.stage], acc.2 - 1/10)
      else acc

/-- One iteration of the review-cycle check: subtract 0.05 when a
cycle took more than 14 days. -/
def cycleStep (acc : List String × ℚ) (c : ReviewCycle) : List String × ℚ :=
  if 14 < c.duration_days then
    (acc.1 ++ ["Review cycle " ++ toString c.cycle_number ++ " took " ++
      ratToDecimalString c.duration_days ++ " days to address"], acc.2 - 1/20)
  else acc

/-- Function `validateTimeline`.  The `events` parameter is unused, as
in the source. -/
def validateTimeline (stages : List PRTimelineStage) (_events : List TimelineEvent)
    (reviewCycles : List ReviewCycle) (issues : List String) (confidenceScore : ℚ) :
    PRTimelineValidation :=
  let acc1 := (stages.zip stages.tail).foldl chronoStep (issues, confidenceScore)
  let acc2 := stages.foldl durationStep acc1
  let acc3 := reviewCycles.foldl cycleStep acc2
  let additionalIssues := acc3.1
  let adjustedConfidence := acc3.2
  let dataQuality : ConfidenceLevel :=
    if 8/10 ≤ adjustedConfidence ∧ additionalIssues.length = 0 then .high
    else if 6/10 ≤ adjustedConfidence ∧ additionalIssues.length ≤ 2 then .medium
    else .low
  { is_valid := decide (1/2 ≤ adjustedConfidence ∧ additionalIssues.length < 5)
  , confidence_score := max 0 (min 1 adjustedConfidence)
  , issues := additionalIssues
  , data_quality := dataQuality }

/-! ## Assembly (`calculateEnhancedPRTimeline`) -/

/-- Function `calculateEnhancedPRTimeline`.  `now` models
`new Date().toISOString()`; the `prComments` parameter is unused, as
in the source. -/
def calculateEnhancedPRTimeline (pr : PullRequest) (prReviews : List Review)
    (_prComments : List Comment) (now : ℤ) : EnhancedPRTimeline :=
  let sortedReviews := List.insertionSort reviewOrder prReviews
  let w := walkReviews pr sortedReviews
  let cfRes := commentsFixedResult pr w
  let stages2 := cfRes.1
  let first_review_to_comments_fixed := cfRes.2.1
  let issues := cfRes.2.2.1
  let confidenceScore := cfRes.2.2.2
  let apRes := approvalResult pr w stages2
  let stages3 := apRes.1
  let comments_fixed_to_approved := apRes.2
  let mgRes := mergeResult pr w.events stages3
  let stages4 := mgRes.1
  let events4 := mgRes.2.1
  let approved_to_merged := mgRes.2.2
  let endTime := pr.merged_at.getD now
  let totalDuration := calculateDaysDiff pr.created_at endTime
  let ongoing :=
    match pr.merged_at with
    | some _ => 0
    | none =>
      let lastActivityTime :=
        if 1 < stages4.length then ((stages4.getLast?).map (·.timestamp)).getD pr.created_at
        else pr.created_at
      calculateDaysDiff lastActivityTime now
  let milestones : Milestones :=
    { pr_created := ⟨some pr.created_at, true⟩
    , first_review :=
        ⟨(findStage stages4 .first_review).map (·.timestamp),
         (findStage stages4 .first_review).isSome⟩
    , approved := ⟨w.lastApprovalTime, w.lastApprovalTime.isSome⟩
    , merged := ⟨pr.merged_at, pr.status == .merged⟩ }
  { pr_number := pr.github_pr_number
  , pr_title := pr.title
  , pr_author := pr.author
  , total_duration := totalDuration
  , stages := stages4
  , is_completed := pr.status == .merged || pr.status == .closed
  , stage_durations :=
      { pr_raised_to_first_review := w.pr_raised_to_first_review
      , first_review_to_comments_fixed := first_review_to_comments_fixed
      , comments_fixed_to_approved := comments_fixed_to_approved
      , approved_to_merged := approved_to_merged
      , ongoing_time := ongoing
      , total_review_time := totalDuration }
  , milestones := milestones
  , validation := validateTimeline stages4 events4 w.reviewCycles issues confidenceScore
  , review_cycles := w.reviewCycles
  , actual_events := events4
  , reviews_after := sortedReviews }

/-! ## Derived-artifact cache (`generateDataVersionHash`,
`isCacheValid`, `createCacheEntry`) -/

/-- interface CommentCategorizationResponse: the AI categorization
payload.  Its internal shape is irrelevant to the caching logic and is
abstracted to a single field. -/
structure CommentCategorizationResponse where
  payload : String
  deriving DecidableEq

/-- The global in-memory store (`pullRequests`, `comments`) read by
`generateDataVersionHash`, passed explicitly. -/
structure DataStore where
  pullRequests : List PullRequest
  comments : List Comment

/-- interface CachedCommentCategorization. -/
structure CachedCommentCategorization where
  data : CommentCategorizationResponse
  generated_at : ℤ
  expires_at : ℤ
  version : String

/-- `ToInt32`: the coercion applied by `<<` and `&` in JavaScript
(wrap into the signed 32-bit range). -/
def toInt32 (n : ℤ) : ℤ := (n + 2 ^ 31) % 2 ^ 32 - 2 ^ 31

/-- One iteration of the hash loop:
`hash = ((hash << 5) - hash) + char; hash = hash & hash`.
`hash << 5` coerces to 32 bits and wraps; the subtraction and addition
are exact; `hash & hash` wraps the result back to 32 bits. -/
def hashStep (h : ℤ) (c : Char) : ℤ := toInt32 (toInt32 (h * 32) - h + (c.toNat : ℤ))

/-- Digits used by JavaScript `Number.prototype.toString(36)`. -/
def base36Digits : List Char := "0123456789abcdefghijklmnopqrstuvwxyz".toList

/-- Big-endian base-36 digit list; `fuel` dominates the value, so the
recursion is structural. -/
def toBase36Aux : ℕ → ℕ → List Char
  | 0, _ => []
  | fuel + 1, n =>
    if n = 0 then []
    else toBase36Aux fuel (n / 36) ++ [base36Digits.getD (n % 36) '0']

/-- `Math.abs(hash).toString(36)` for a natural number. -/
def natToBase36 (n : ℕ) : String :=
  if n = 0 then "0" else String.mk (toBase36Aux (n + 1) n)

/-- The `JSON.stringify({...})` string hashed by
`generateDataVersionHash`.  `lastUpdated` is
`pullRequests.map(pr => pr.updated_at).sort().slice(-1)[0] || ''`: the
lexicographically largest ISO timestamp (= the chronological maximum,
rendered here from the integer model), or the empty string. -/
def jsDataString (st : DataStore) : String :=
  let lastUpdated :=
    match (st.pullRequests.map (·.updated_at)).max? with
    | some t => toString t
    | none => ""
  "\x7b\"prCount\":" ++ toString st.pullRequests.length ++
    ",\"commentCount\":" ++ toString st.comments.length ++
    ",\"lastUpdated\":\"" ++ lastUpdated ++
    "\",\"humanCommentCount\":" ++ toString (st.comments.filter isHumanComment).length ++
    "\x7d"

/-- Function `generateDataVersionHash`: the 32-bit string hash of the
summary JSON, rendered in base 36 behind the `'v1_'` prefix
(`CACHE_VERSION_PREFIX`). -/
def generateDataVersionHash (st : DataStore) : String :=
  let dataString := jsDataString st
  let hash := dataString.toList.foldl hashStep 0
  "v1_" ++ natToBase36 hash.natAbs

/-- `CACHE_EXPIRY_HOURS * 60 * 60 * 1000` in milliseconds. -/
def cacheExpiryMs : ℤ := 2 * 60 * 60 * 1000

/-- Function `isCacheValid`: non-null, wall clock strictly before
`expires_at`, and stored version equal to the current hash. -/
def isCacheValid (st : DataStore) (now : ℤ)
    (cache : Option CachedCommentCategorization) : Bool :=
  match cache with
  | none => false
  | some c =>
    let currentVersion := generateDataVersionHash st
    decide (now < c.expires_at) && (c.version == currentVersion)

/-- Function `createCacheEntry`. -/
def createCacheEntry (d : CommentCategorizationResponse) (st : DataStore)
    (now : ℤ) : CachedCommentCategorization :=
  { data := d
  , generated_at := now
  , expires_at := now + cacheExpiryMs
  , version := generateDataVersionHash st }

/-! ## Concrete fixtures

Timestamps are milliseconds; `2024-01-01T00:00:00Z` is taken as origin
`0`, so `2024-01-0k` is `day (k - 1)`. -/

/-- Milliseconds in `n` days. -/
def day (n : ℤ) : ℤ := n * 86400000

/-- Scenario-B pull request: created 2024-01-01, merged 2024-01-07. -/
def prB : PullRequest :=
  { github_pr_number := 42, title := "B", author := "alice"
  , created_at := 0, updated_at := day 6, merged_at := some (day 6), status := .merged }

/-- Scenario-B reviews: changes_requested 2024-01-02, commented
2024-01-05, approved 2024-01-06. -/
def reviewsB : List Review :=
  [ ⟨1, 42, "bob", .changes_requested, day 1, true, none⟩
  , ⟨2, 42, "carol", .commented, day 4, true, none⟩
  , ⟨3, 42, "dave", .approved, day 5, true, none⟩ ]

/-- A merged pull request with no reviews at all. -/
def prM : PullRequest :=
  { github_pr_number := 7, title := "M", author := "alice"
  , created_at := 0, updated_at := day 2, merged_at := some (day 2), status := .merged }

/-- Scenario-A pull request: created 2024-01-01, still open. -/
def prA : PullRequest :=
  { github_pr_number := 8, title := "A", author := "alice"
  , created_at := 0, updated_at := day 2, merged_at := none, status := .open_ }

/-- Scenario-A review: a single approval at 2024-01-03. -/
def reviewsA : List Review := [⟨1, 8, "bob", .approved, day 2, true, none⟩]

/-- An open pull request whose only review requests changes and whose
`updated_at` does not lie after the request: the cycle stays
unresolved. -/
def prU : PullRequest :=
  { github_pr_number := 9, title := "U", author := "alice"
  , created_at := 0, updated_at := 0, merged_at := none, status := .open_ }

/-- The unresolved changes_requested review for `prU`. -/
def reviewsU : List Review := [⟨1, 9, "bob", .changes_requested, day 1, true, none⟩]

/-- A human comment whose raw body has 12 characters but whose trimmed
body has only 2. -/
def paddedComment : Comment := ⟨1, 1, 1, "alice", "ok          ", 0, false, .general⟩

/-- A human-authored comment whose raw body is shorter than 10
characters. -/
def shortComment : Comment := ⟨2, 1, 2, "alice", "lgtm", 0, false, .general⟩

/-- A concrete derived-artifact payload. -/
def payloadX : CommentCategorizationResponse := ⟨"x"⟩

/-- An empty data store. -/
def storeEmpty : DataStore := ⟨[], []⟩

/-- A store with one pull request (its version hash differs from the
empty store's). -/
def storeOne : DataStore := ⟨[prA], []⟩

/-- The condition of the chronological-order penalty. -/
def chronoBad (p : PRTimelineStage × PRTimelineStage) : Bool :=
  decide (p.2.timestamp < p.1.timestamp)

/-- The condition of the negative-duration penalty. -/
def negBad (s : PRTimelineStage) : Bool :=
  match s.duration_from_previous with
  | some d => decide (d < 0)
  | none => false

/-- The condition of the overlong-duration penalty. -/
def longBad (s : PRTimelineStage) : Bool :=
  match s.duration_from_previous with
  | some d => decide (30 < d)
  | none => false

/-- The condition of the long-review-cycle penalty. -/
def cycleBad (c : ReviewCycle) : Bool :=
  decide (14 < c.duration_days)

/-- The combined issue/confidence accumulator of `validateTimeline`. -/
def validateAcc (stages : List PRTimelineStage) (reviewCycles : List ReviewCycle)
    (issues : List String) (confidenceScore : ℚ) : List String × ℚ :=
  reviewCycles.foldl cycleStep
    (stages.foldl durationStep
      ((stages.zip stages.tail).foldl chronoStep (issues, confidenceScore)))

/-- The review cycle pushed by `stepChangesRequested`. -/
def pushedCycle (pr : PullRequest) (sorted : List Review) (st : WalkState)
    (r : Review) : ReviewCycle :=
  { cycle_number := st.currentCycle + 1
  , changes_requested_at := r.submitted_at
  , changes_addressed_at := findChangesAddressedTime pr r.submitted_at sorted
  , duration_days :=
      match findChangesAddressedTime pr r.submitted_at sorted with
      | some t => calculateDaysDiff r.submitted_at t
      | none => 0
  , reviewer := r.reviewer_username }

/-- Invariant carried through the review walk, parameterized by the
reviews still to process: the first-review stage (when present) is
findable, is unique as a `find?` target, and its timestamp bounds both
the remaining reviews and every recorded request time; every resolved
cycle resolves strictly after its request and stores the corresponding
duration, every unresolved cycle stores duration 0; the walk never
pushes a `comments_fixed` stage; and a nonempty cycle list forces a
recorded last-changes-requested time. -/
def walkInv (l : List Review) (st : WalkState) : Prop :=
  (st.firstReviewFound = false →
     findStage st.stages .first_review = none ∧ st.reviewCycles = [] ∧
     st.lastChangesRequestedTime = none) ∧
  (st.firstReviewFound = true →
     ∃ fs, findStage st.stages .first_review = some fs ∧
       (∀ r ∈ l, fs.timestamp ≤ r.submitted_at) ∧
       (∀ c ∈ st.reviewCycles, fs.timestamp ≤ c.changes_requested_at)) ∧
  (∀ c ∈ st.reviewCycles,
     (∀ a, c.changes_addressed_at = some a →
        c.changes_requested_at < a ∧
        c.duration_days = calculateDaysDiff c.changes_requested_at a) ∧
     (c.changes_addressed_at = none → c.duration_days = 0)) ∧
  (∀ s ∈ st.stages, s.stage ≠ .comments_fixed) ∧
  (st.reviewCycles ≠ [] → st.lastChangesRequestedTime.isSome = true)

/-- A list of reviews that is not sorted by submission time. -/
def reviewsOutOfOrder : List Review :=
  [⟨2, 8, "bob", .approved, day 2, true, none⟩, ⟨3, 8, "carol", .commented, day 1, true, none⟩]

/-! ## Helper lemmas -/

/-- `find?` on an append when the left part already finds a hit. -/
theorem find?_append_some {α : Type} {p : α → Bool} {l1 l2 : List α} {x : α}
    (h : l1.find? p = some x) : (l1 ++ l2).find? p = some x := by
  simp [List.find?_append, h]

/-- `find?` on an append when the left part finds nothing. -/
theorem find?_append_none {α : Type} {p : α → Bool} {l1 l2 : List α}
    (h : l1.find? p = none) : (l1 ++ l2).find? p = l2.find? p := by
  simp [List.find?_append, h]

/-- Membership from `getLast?`. -/
theorem mem_of_getLast?_eq_some {α : Type} {l : List α} {x : α}
    (h : l.getLast? = some x) : x ∈ l := by
  induction l with
  | nil => simp at h
  | cons a l ih =>
    cases l with
    | nil => simp_all
    | cons b t =>
      rw [List.getLast?_cons_cons] at h
      exact List.mem_cons_of_mem a (ih h)

/-- A fold whose step only ever appends to the first (issue-list)
component leaves the initial issues as a prefix. -/
theorem foldl_fst_sub {α : Type}
    (f : (List String × ℚ) → α → (List String × ℚ))
    (hf : ∀ acc a, ∃ d, (f acc a).1 = acc.1 ++ d) :
    ∀ (l : List α) (acc : List String × ℚ), ∃ g, (l.foldl f acc).1 = acc.1 ++ g := by
  intro l
  induction l with
  | nil => intro acc; exact ⟨[], by simp⟩
  | cons a l ih =>
    intro acc
    obtain ⟨d, hd⟩ := hf acc a
    obtain ⟨g, hg⟩ := ih (f acc a)
    exact ⟨d ++ g, by rw [List.foldl_cons, hg, hd, List.append_assoc]⟩

/-- A fold whose step never increases the second (confidence)
component never increases it overall. -/
theorem foldl_snd_le {α : Type}
    (f : (List String × ℚ) → α → (List String × ℚ))
    (hf : ∀ acc a, (f acc a).2 ≤ acc.2) :
    ∀ (l : List α) (acc : List String × ℚ), (l.foldl f acc).2 ≤ acc.2 := by
  intro l
  induction l with
  | nil => intro acc; simp
  | cons a l ih => intro acc; exact le_trans (ih (f acc a)) (hf acc a)

/-- The chronological-order fold appends one issue and subtracts 0.3
per out-of-order adjacent pair. -/
theorem chrono_foldl (l : List (PRTimelineStage × PRTimelineStage)) :
    ∀ acc : List String × ℚ,
      (l.foldl chronoStep acc).1.length = acc.1.length + l.countP chronoBad ∧
      (l.foldl chronoStep acc).2 = acc.2 - 3/10 * (l.countP chronoBad : ℚ) := by
  induction l with
  | nil => intro acc; simp
  | cons a l ih =>
    intro acc
    rw [List.foldl_cons, List.countP_cons]
    by_cases h : a.2.timestamp < a.1.timestamp
    · have hstep : chronoStep acc a =
        (acc.1 ++ ["Stage " ++ stageNameStr a.2.stage ++ " occurs before " ++
          stageNameStr a.1.stage], acc.2 - 3/10) := by
        simp [chronoStep, h]
      have hb : chronoBad a = true := by simp [chronoBad, h]
      rw [hstep]
      obtain ⟨ih1, ih2⟩ := ih _
      refine ⟨?_, ?_⟩
      · rw [ih1]; simp [hb]; omega
      · rw [ih2]; simp [hb]; ring
    · have hstep : chronoStep acc a = acc := by simp [chronoStep, h]
      have hb : chronoBad a = false := by simp [chronoBad, h]
      rw [hstep]
      obtain ⟨ih1, ih2⟩ := ih acc
      exact ⟨by rw [ih1]; simp [hb], by rw [ih2]; simp [hb]⟩

/-- The duration fold appends one issue and subtracts 0.2 per negative
duration, and one issue and 0.1 per duration over 30 days. -/
theorem duration_foldl (l : List PRTimelineStage) :
    ∀ acc : List String × ℚ,
      (l.foldl durationStep acc).1.length =
        acc.1.length + l.countP negBad + l.countP longBad ∧
      (l.foldl durationStep acc).2 =
        acc.2 - 2/10 * (l.countP negBad : ℚ) - 1/10 * (l.countP longBad : ℚ) := by
  induction l with
  | nil => intro acc; simp
  | cons s l ih =>
    intro acc
    rw [List.foldl_cons, List.countP_cons, List.countP_cons]
    rcases hd : s.duration_from_previous with _ | d
    · have hstep : durationStep acc s = acc := by simp [durationStep, hd]
      have hn : negBad s = false := by simp [negBad, hd]
      have hl : longBad s = false := by simp [longBad, hd]
      rw [hstep]
      obtain ⟨ih1, ih2⟩ := ih acc
      exact ⟨by rw [ih1]; simp [hn, hl], by rw [ih2]; simp [hn, hl]⟩
    · by_cases h0 : d = 0
      · have hstep : durationStep acc s = acc := by simp [durationStep, hd, h0]
        have hn : negBad s = false := by simp [negBad, hd, h0]
        have hl : longBad s = false := by simp [longBad, hd, h0]
        rw [hstep]
        obtain ⟨ih1, ih2⟩ := ih acc
        exact ⟨by rw [ih1]; simp [hn, hl], by rw [ih2]; simp [hn, hl]⟩
      · by_cases hneg : d < 0
        · have hnotlong : ¬(30 < d) := by linarith
          have hstep : durationStep acc s =
            (acc.1 ++ ["Negative duration detected for stage " ++ stageNameStr s.stage],
             acc.2 - 2/10) := by
            simp [durationStep, hd, h0, hneg, hnotlong]
          have hn : negBad s = true := by simp [negBad, hd, hneg]
          have hl : longBad s = false := by simp [longBad, hd, hnotlong]
          rw [hstep]
          obtain ⟨ih1, ih2⟩ := ih _
          refine ⟨?_, ?_⟩
          · rw [ih1]; simp [hn, hl]; omega
          · rw [ih2]; simp [hn, hl]; ring
        · by_cases hlong : 30 < d
          · have hstep : durationStep acc s =
              (acc.1 ++ ["Unusually long duration (" ++ ratToDecimalString d ++
                " days) for stage " ++ stageNameStr s.stage], acc.2 - 1/10) := by
              simp [durationStep, hd, h0, hneg, hlong]
            have hn : negBad s = false := by simp [negBad, hd, hneg]
            have hl : longBad s = true := by simp [longBad, hd, hlong]
            rw [hstep]
            obtain ⟨ih1, ih2⟩ := ih _
            refine ⟨?_, ?_⟩
            · rw [ih1]; simp [hn, hl]; omega
            · rw [ih2]; simp [hn, hl]; ring
          · have hstep : durationStep acc s = acc := by
              simp [durationStep, hd, h0, hneg, hlong]
            have hn : negBad s = false := by simp [negBad, hd, hneg]
            have hl : longBad s = false := by simp [longBad, hd, hlong]
            rw [hstep]
            obtain ⟨ih1, ih2⟩ := ih acc
            exact ⟨by rw [ih1]; simp [hn, hl], by rw [ih2]; simp [hn, hl]⟩

/-- The review-cycle fold appends one issue and subtracts 0.05 per
cycle longer than 14 days. -/
theorem cycle_foldl (l : List ReviewCycle) :
    ∀ acc : List String × ℚ,
      (l.foldl cycleStep acc).1.length = acc.1.length + l.countP cycleBad ∧
      (l.foldl cycleStep acc).2 = acc.2 - 1/20 * (l.countP cycleBad : ℚ) := by
  induction l with
  | nil => intro acc; simp
  | cons c l ih =>
    intro acc
    rw [List.foldl_cons, List.countP_cons]
    by_cases h : 14 < c.duration_days
    · have hstep : cycleStep acc c =
        (acc.1 ++ ["Review cycle " ++ toString c.cycle_number ++ " took " ++
          ratToDecimalString c.duration_days ++ " days to address"], acc.2 - 1/20) := by
        simp [cycleStep, h]
      have hb : cycleBad c = true := by simp [cycleBad, h]
      rw [hstep]
      obtain ⟨ih1, ih2⟩ := ih _
      refine ⟨?_, ?_⟩
      · rw [ih1]; simp [hb]; omega
      · rw [ih2]; simp [hb]; ring
    · have hstep : cycleStep acc c = acc := by simp [cycleStep, h]
      have hb : cycleBad c = false := by simp [cycleBad, h]
      rw [hstep]
      obtain ⟨ih1, ih2⟩ := ih acc
      exact ⟨by rw [ih1]; simp [hb], by rw [ih2]; simp [hb]⟩

/-- Characterization of the accumulator in terms of the four penalty
counts. -/
theorem validateAcc_eq (stages : List PRTimelineStage) (reviewCycles : List ReviewCycle)
    (issues : List String) (confidenceScore : ℚ) :
    (validateAcc stages reviewCycles issues confidenceScore).1.length =
      issues.length + (stages.zip stages.tail).countP chronoBad +
        stages.countP negBad + stages.countP longBad + reviewCycles.countP cycleBad ∧
    (validateAcc stages reviewCycles issues confidenceScore).2 =
      confidenceScore - 3/10 * ((stages.zip stages.tail).countP chronoBad : ℚ) -
        2/10 * (stages.countP negBad : ℚ) - 1/10 * (stages.countP longBad : ℚ) -
        1/20 * (reviewCycles.countP cycleBad : ℚ) := by
  unfold validateAcc
  obtain ⟨c1, c2⟩ := chrono_foldl (stages.zip stages.tail) (issues, confidenceScore)
  obtain ⟨d1, d2⟩ :=
    duration_foldl stages ((stages.zip stages.tail).foldl chronoStep (issues, confidenceScore))
  obtain ⟨e1, e2⟩ := cycle_foldl reviewCycles
    (stages.foldl durationStep
      ((stages.zip stages.tail).foldl chronoStep (issues, confidenceScore)))
  exact ⟨by rw [e1, d1, c1], by rw [e2, d2, c2]⟩

/-- `validateTimeline` unfolded to its accumulator. -/
theorem validateTimeline_acc (stages : List PRTimelineStage) (events : List TimelineEvent)
    (reviewCycles : List ReviewCycle) (issues : List String) (confidenceScore : ℚ) :
    validateTimeline stages events reviewCycles issues confidenceScore =
      { is_valid := decide (1/2 ≤ (validateAcc stages reviewCycles issues confidenceScore).2 ∧
          (validateAcc stages reviewCycles issues confidenceScore).1.length < 5)
      , confidence_score :=
          max 0 (min 1 (validateAcc stages reviewCycles issues confidenceScore).2)
      , issues := (validateAcc stages reviewCycles issues confidenceScore).1
      , data_quality :=
          if 8/10 ≤ (validateAcc stages reviewCycles issues confidenceScore).2 ∧
              (validateAcc stages reviewCycles issues confidenceScore).1.length = 0 then .high
          else if 6/10 ≤ (validateAcc stages reviewCycles issues confidenceScore).2 ∧
              (validateAcc stages reviewCycles issues confidenceScore).1.length ≤ 2 then .medium
          else .low } := rfl

/-- Clamping into `[0, 1]` preserves comparisons with thresholds in
`(0, 1]`. -/
theorem clamp_ge_iff {x θ : ℚ} (h0 : 0 < θ) (h1 : θ ≤ 1) :
    θ ≤ max 0 (min 1 x) ↔ θ ≤ x := by
  rw [le_max_iff]
  constructor
  · rintro (h | h)
    · linarith
    · exact (le_min_iff.mp h).2
  · intro h
    exact Or.inr (le_min_iff.mpr ⟨h1, h⟩)

/-! ## Review-walk invariants -/

/-- A resolution time returned by `findChangesAddressedTime` lies
strictly after the request time (the subsequent-review filter requires
it, and the `updated_at` fallback checks it). -/
theorem findChangesAddressedTime_lt {pr : PullRequest} {t : ℤ} {rs : List Review} {a : ℤ}
    (h : findChangesAddressedTime pr t rs = some a) : t < a := by
  simp only [findChangesAddressedTime] at h
  split at h
  · next r l heq =>
    have hr : r ∈ rs.filter fun r =>
        decide (t < r.submitted_at) &&
          (r.review_state == ReviewState.approved || r.review_state == ReviewState.commented) := by
      rw [heq]; exact List.mem_cons_self r l
    obtain ⟨-, hp⟩ := List.mem_filter.mp hr
    rw [Bool.and_eq_true] at hp
    cases h
    exact of_decide_eq_true hp.1
  · split at h
    · cases h; assumption
    · cases h

/-- `stepFirstReview` leaves a state in which the first review has
been seen. -/
theorem stepFirstReview_found (pr : PullRequest) (st : WalkState) (r : Review)
    (h : st.firstReviewFound = true) : stepFirstReview pr st r = st := by
  simp [stepFirstReview, h]

/-- `stepFirstReview` on a fresh state pushes the first-review stage. -/
theorem stepFirstReview_not_found (pr : PullRequest) (st : WalkState) (r : Review)
    (h : st.firstReviewFound = false) :
    stepFirstReview pr st r =
      { st with
        firstReviewFound := true
        pr_raised_to_first_review := calculateDaysDiff pr.created_at r.submitted_at
        events := st.events ++
          [⟨.first_review, r.submitted_at, r.reviewer_username,
            some (reviewStateStr r.review_state)⟩]
        stages := st.stages ++
          [⟨.first_review, r.submitted_at,
            some (calculateDaysDiff pr.created_at r.submitted_at)⟩] } := by
  simp [stepFirstReview, h]

/-- `stepChangesRequested` on a non-changes-requested review is the
identity. -/
theorem stepChangesRequested_of_ne (pr : PullRequest) (sorted : List Review)
    (st : WalkState) (r : Review) (h : r.review_state ≠ .changes_requested) :
    stepChangesRequested pr sorted st r = st := by
  simp [stepChangesRequested, h]

/-- Field effects of `stepChangesRequested` on a changes-requested
review: the stages are untouched, the cycle list is extended by
`pushedCycle`, and the last-changes-requested time becomes the
review's timestamp. -/
theorem stepChangesRequested_of_eq (pr : PullRequest) (sorted : List Review)
    (st : WalkState) (r : Review) (h : r.review_state = .changes_requested) :
    (stepChangesRequested pr sorted st r).stages = st.stages ∧
    (stepChangesRequested pr sorted st r).reviewCycles =
      st.reviewCycles ++ [pushedCycle pr sorted st r] ∧
    (stepChangesRequested pr sorted st r).lastChangesRequestedTime = some r.submitted_at ∧
    (stepChangesRequested pr sorted st r).firstReviewFound = st.firstReviewFound := by
  rcases hf : findChangesAddressedTime pr r.submitted_at sorted with _ | t <;>
    simp [stepChangesRequested, pushedCycle, h, hf]

/-- `stepApproved` never touches stages, cycles, the
last-changes-requested time or the first-review flag. -/
theorem stepApproved_fields (st : WalkState) (r : Review) :
    (stepApproved st r).stages = st.stages ∧
    (stepApproved st r).reviewCycles = st.reviewCycles ∧
    (stepApproved st r).lastChangesRequestedTime = st.lastChangesRequestedTime ∧
    (stepApproved st r).firstReviewFound = st.firstReviewFound := by
  by_cases h : r.review_state = .approved <;> simp [stepApproved, h]

/-- One walk iteration preserves the invariant, consuming the head of
the remaining-review list (which, by sortedness, bounds the rest). -/
theorem processReview_inv (pr : PullRequest) (sorted : List Review) (r : Review)
    (l : List Review) (st : WalkState)
    (hr : ∀ r2 ∈ l, r.submitted_at ≤ r2.submitted_at)
    (h : walkInv (r :: l) st) : walkInv l (processReview pr sorted st r) := by
  obtain ⟨h1, h2, h3, h4, h5⟩ := h
  -- facts about the state after the first-review block
  have hfound1 : (stepFirstReview pr st r).firstReviewFound = true := by
    rcases hf : st.firstReviewFound
    · rw [stepFirstReview_not_found pr st r hf]
    · rw [stepFirstReview_found pr st r hf]; exact hf
  have hcyc1 : (stepFirstReview pr st r).reviewCycles = st.reviewCycles := by
    rcases hf : st.firstReviewFound
    · rw [stepFirstReview_not_found pr st r hf]
    · rw [stepFirstReview_found pr st r hf]
  have hcr1 : (stepFirstReview pr st r).lastChangesRequestedTime =
      st.lastChangesRequestedTime := by
    rcases hf : st.firstReviewFound
    · rw [stepFirstReview_not_found pr st r hf]
    · rw [stepFirstReview_found pr st r hf]
  have hfs1 : ∃ fs, findStage (stepFirstReview pr st r).stages .first_review = some fs ∧
      (∀ r2 ∈ l, fs.timestamp ≤ r2.submitted_at) ∧
      fs.timestamp ≤ r.submitted_at ∧
      (∀ c ∈ st.reviewCycles, fs.timestamp ≤ c.changes_requested_at) := by
    rcases hf : st.firstReviewFound
    · obtain ⟨hnone, hcyc0, -⟩ := h1 hf
      refine ⟨⟨.first_review, r.submitted_at,
        some (calculateDaysDiff pr.created_at r.submitted_at)⟩, ?_, hr, le_refl _, ?_⟩
      · rw [stepFirstReview_not_found pr st r hf]
        simp only [findStage] at hnone ⊢
        rw [find?_append_none hnone]
        simp [List.find?]
      · intro c hc; rw [hcyc0] at hc; cases hc
    · obtain ⟨fs, hfind, hbound, hcyc⟩ := h2 hf
      refine ⟨fs, ?_, fun r2 hm => hbound r2 (List.mem_cons_of_mem r hm),
        hbound r (List.mem_cons_self r l), hcyc⟩
      rw [stepFirstReview_found pr st r hf]; exact hfind
  have hstages1cf : ∀ s ∈ (stepFirstReview pr st r).stages, s.stage ≠ .comments_fixed := by
    rcases hf : st.firstReviewFound
    · rw [stepFirstReview_not_found pr st r hf]
      intro s hs
      rcases List.mem_append.mp hs with hs | hs
      · exact h4 s hs
      · obtain rfl := List.mem_singleton.mp hs
        simp
    · rw [stepFirstReview_found pr st r hf]; exact h4
  -- facts about the state after the changes-requested block
  set st1 := stepFirstReview pr st r with hst1
  have hfields2 : (stepChangesRequested pr sorted st1 r).stages = st1.stages ∧
      ((stepChangesRequested pr sorted st1 r).reviewCycles = st1.reviewCycles ∨
        (stepChangesRequested pr sorted st1 r).reviewCycles =
          st1.reviewCycles ++ [pushedCycle pr sorted st1 r]) ∧
      ((stepChangesRequested pr sorted st1 r).lastChangesRequestedTime =
          st1.lastChangesRequestedTime ∨
        (stepChangesRequested pr sorted st1 r).lastChangesRequestedTime =
          some r.submitted_at) ∧
      (stepChangesRequested pr sorted st1 r).firstReviewFound = st1.firstReviewFound ∧
      ((stepChangesRequested pr sorted st1 r).reviewCycles = st1.reviewCycles →
        (stepChangesRequested pr sorted st1 r).lastChangesRequestedTime =
          st1.lastChangesRequestedTime) := by
    by_cases hcr : r.review_state = .changes_requested
    · obtain ⟨a1, a2, a3, a4⟩ := stepChangesRequested_of_eq pr sorted st1 r hcr
      refine ⟨a1, Or.inr a2, Or.inr a3, a4, ?_⟩
      intro heq
      rw [a2] at heq
      exact absurd heq (by simp)
    · rw [stepChangesRequested_of_ne pr sorted st1 r hcr]
      exact ⟨rfl, Or.inl rfl, Or.inl rfl, rfl, fun _ => rfl⟩
  set st2 := stepChangesRequested pr sorted st1 r with hst2
  obtain ⟨hb1, hb2, hb3, hb4, hb5⟩ := hfields2
  obtain ⟨ha1, ha2, ha3, ha4⟩ := stepApproved_fields st2 r
  show walkInv l (stepApproved st2 r)
  refine ⟨?_, ?_, ?_, ?_, ?_⟩
  · intro hff
    rw [ha4, hb4, hfound1] at hff
    simp at hff
  · intro _
    obtain ⟨fs, hfind, hbl, hbr, hbc⟩ := hfs1
    refine ⟨fs, ?_, hbl, ?_⟩
    · rw [ha1, hb1]; exact hfind
    · intro c hc
      rw [ha2] at hc
      rcases hb2 with hb2 | hb2
      · rw [hb2, hcyc1] at hc; exact hbc c hc
      · rw [hb2] at hc
        rcases List.mem_append.mp hc with hc | hc
        · rw [hcyc1] at hc; exact hbc c hc
        · obtain rfl := List.mem_singleton.mp hc
          exact hbr
  · intro c hc
    rw [ha2] at hc
    have hold : ∀ c2 ∈ st.reviewCycles,
        (∀ a, c2.changes_addressed_at = some a →
          c2.changes_requested_at < a ∧
          c2.duration_days = calculateDaysDiff c2.changes_requested_at a) ∧
        (c2.changes_addressed_at = none → c2.duration_days = 0) := h3
    have hnew : (∀ a, (pushedCycle pr sorted st1 r).changes_addressed_at = some a →
          (pushedCycle pr sorted st1 r).changes_requested_at < a ∧
          (pushedCycle pr sorted st1 r).duration_days =
            calculateDaysDiff (pushedCycle pr sorted st1 r).changes_requested_at a) ∧
        ((pushedCycle pr sorted st1 r).changes_addressed_at = none →
          (pushedCycle pr sorted st1 r).duration_days = 0) := by
      constructor
      · intro a ha
        have hlt := @findChangesAddressedTime_lt pr r.submitted_at sorted a
          (by simpa [pushedCycle] using ha)
        refine ⟨by simpa [pushedCycle] using hlt, ?_⟩
        have ha' : findChangesAddressedTime pr r.submitted_at sorted = some a := by
          simpa [pushedCycle] using ha
        simp [pushedCycle, ha']
      · intro ha
        have ha' : findChangesAddressedTime pr r.submitted_at sorted = none := by
          simpa [pushedCycle] using ha
        simp [pushedCycle, ha']
    rcases hb2 with hb2 | hb2
    · rw [hb2, hcyc1] at hc; exact hold c hc
    · rw [hb2] at hc
      rcases List.mem_append.mp hc with hc | hc
      · rw [hcyc1] at hc; exact hold c hc
      · obtain rfl := List.mem_singleton.mp hc
        exact hnew
  · intro s hs
    rw [ha1, hb1] at hs
    exact hstages1cf s hs
  · intro hne
    rw [ha2] at hne
    rw [ha3]
    rcases hb2 with hb2 | hb2
    · rw [hb2, hcyc1] at hne
      rw [hb5 hb2, hcr1]
      exact h5 hne
    · by_cases hcr : r.review_state = .changes_requested
      · obtain ⟨-, -, a3, -⟩ := stepChangesRequested_of_eq pr sorted st1 r hcr
        rw [a3]; rfl
      · have hid : stepChangesRequested pr sorted st1 r = st1 :=
          stepChangesRequested_of_ne pr sorted st1 r hcr
        rw [hst2, hid] at hb2
        exact absurd hb2.symm (by simp)

/-- The invariant survives the whole fold over a sorted review list. -/
theorem walk_fold_inv (pr : PullRequest) (sorted : List Review) :
    ∀ (l : List Review) (st : WalkState), List.Pairwise reviewOrder l → walkInv l st →
      walkInv [] (l.foldl (processReview pr sorted) st) := by
  intro l
  induction l with
  | nil => intro st _ h; simpa using h
  | cons r l ih =>
    intro st hp h
    rw [List.foldl_cons]
    rw [List.pairwise_cons] at hp
    exact ih _ hp.2 (processReview_inv pr sorted r l st hp.1 h)

/-- The walk over any sorted review list satisfies the invariant. -/
theorem walkReviews_inv (pr : PullRequest) (sorted : List Review)
    (hp : List.Pairwise reviewOrder sorted) : walkInv [] (walkReviews pr sorted) := by
  apply walk_fold_inv pr sorted sorted _ hp
  refine ⟨?_, ?_, ?_, ?_, ?_⟩
  · intro _; exact ⟨rfl, rfl, rfl⟩
  · intro hf; cases hf
  · intro c hc; cases hc
  · intro s hs
    obtain rfl := List.mem_singleton.mp hs
    simp [initWalkState]
  · intro hne; exact absurd rfl hne

/-! ## Projection and block-level lemmas for the assembled timeline -/

/-- The modelled post-call state of the caller's review array. -/
theorem calc_reviews_after (pr : PullRequest) (rs : List Review) (cs : List Comment)
    (now : ℤ) :
    (calculateEnhancedPRTimeline pr rs cs now).reviews_after =
      List.insertionSort reviewOrder rs := rfl

/-- The produced review cycles are exactly the walk's. -/
theorem calc_review_cycles (pr : PullRequest) (rs : List Review) (cs : List Comment)
    (now : ℤ) :
    (calculateEnhancedPRTimeline pr rs cs now).review_cycles =
      (walkReviews pr (List.insertionSort reviewOrder rs)).reviewCycles := rfl

/-- The produced stages are the walk's stages threaded through the
three post-walk blocks. -/
theorem calc_stages (pr : PullRequest) (rs : List Review) (cs : List Comment) (now : ℤ) :
    (calculateEnhancedPRTimeline pr rs cs now).stages =
      (mergeResult pr (walkReviews pr (List.insertionSort reviewOrder rs)).events
        (approvalResult pr (walkReviews pr (List.insertionSort reviewOrder rs))
          (commentsFixedResult pr (walkReviews pr (List.insertionSort reviewOrder rs))).1).1).1 :=
  rfl

/-- The validation is computed from the final stages and events, the
walk's cycles, and the issue/confidence pair of the comments-fixed
block. -/
theorem calc_validation (pr : PullRequest) (rs : List Review) (cs : List Comment)
    (now : ℤ) :
    (calculateEnhancedPRTimeline pr rs cs now).validation =
      validateTimeline
        (calculateEnhancedPRTimeline pr rs cs now).stages
        (calculateEnhancedPRTimeline pr rs cs now).actual_events
        (walkReviews pr (List.insertionSort reviewOrder rs)).reviewCycles
        (commentsFixedResult pr (walkReviews pr (List.insertionSort reviewOrder rs))).2.2.1
        (commentsFixedResult pr (walkReviews pr (List.insertionSort reviewOrder rs))).2.2.2 :=
  rfl

/-- When the last cycle is unresolved, the comments-fixed block adds
no stage, records the unresolved-cycle issue and pays 0.2 confidence. -/
theorem commentsFixedResult_unresolved {pr : PullRequest} {w : WalkState} {c : ReviewCycle}
    (hcr : w.lastChangesRequestedTime.isSome = true)
    (hl : w.reviewCycles.getLast? = some c)
    (ha : c.changes_addressed_at = none) :
    commentsFixedResult pr w =
      (w.stages, 0, ["Changes were requested but no clear resolution detected"], 1 - 2/10) := by
  obtain ⟨t, ht⟩ := Option.isSome_iff_exists.mp hcr
  simp [commentsFixedResult, ht, hl, ha]

/-- Case analysis on the stages produced by the comments-fixed block:
either they are the walk's stages, or one `comments_fixed` stage was
appended, timed at the last cycle's resolution and anchored to the
first-review stage (else PR creation). -/
theorem commentsFixedResult_stages_cases (pr : PullRequest) (w : WalkState) :
    (commentsFixedResult pr w).1 = w.stages ∨
    ∃ c a, w.reviewCycles.getLast? = some c ∧ c.changes_addressed_at = some a ∧
      (commentsFixedResult pr w).1 = w.stages ++
        [⟨.comments_fixed, a,
          some (calculateDaysDiff
            (((findStage w.stages .first_review).map (·.timestamp)).getD pr.created_at) a)⟩] := by
  rcases hcr : w.lastChangesRequestedTime with _ | t
  · left; simp [commentsFixedResult, hcr]
  · rcases hl : w.reviewCycles.getLast? with _ | c
    · left; simp [commentsFixedResult, hcr, hl]
    · rcases ha : c.changes_addressed_at with _ | a
      · left; simp [commentsFixedResult, hcr, hl, ha]
      · right
        exact ⟨c, a, rfl, ha, by simp [commentsFixedResult, hcr, hl, ha]⟩

/-- Stages surviving the approval block: anything in the result is
either an input stage or the pushed `approved` stage. -/
theorem mem_approvalResult {pr : PullRequest} {w : WalkState}
    {stages2 : List PRTimelineStage} {s : PRTimelineStage}
    (hs : s ∈ (approvalResult pr w stages2).1) : s ∈ stages2 ∨ s.stage = .approved := by
  rcases hla : w.lastApprovalTime with _ | t
  · left; simpa [approvalResult, hla] using hs
  · by_cases hf : (findStage stages2 .approved).isNone
    · simp only [approvalResult, hla, hf, if_pos] at hs
      rcases List.mem_append.mp hs with hs | hs
      · exact Or.inl hs
      · obtain rfl := List.mem_singleton.mp hs
        exact Or.inr rfl
    · left
      simpa [approvalResult, hla, hf] using hs

/-- Stages surviving the merge block: anything in the result is either
an input stage or the pushed `merged` stage. -/
theorem mem_mergeResult {pr : PullRequest} {events : List TimelineEvent}
    {stages3 : List PRTimelineStage} {s : PRTimelineStage}
    (hs : s ∈ (mergeResult pr events stages3).1) : s ∈ stages3 ∨ s.stage = .merged := by
  rcases hm : pr.merged_at with _ | t
  · left; simpa [mergeResult, hm] using hs
  · simp only [mergeResult, hm] at hs
    rcases List.mem_append.mp hs with hs | hs
    · exact Or.inl hs
    · obtain rfl := List.mem_singleton.mp hs
      exact Or.inr rfl

/-- The approval block preserves a successful first-review lookup. -/
theorem findStage_approvalResult {pr : PullRequest} {w : WalkState}
    {stages2 : List PRTimelineStage} {n : StageName} {fs : PRTimelineStage}
    (h : findStage stages2 n = some fs) : findStage (approvalResult pr w stages2).1 n = some fs := by
  rcases hla : w.lastApprovalTime with _ | t
  · simpa [approvalResult, hla] using h
  · by_cases hf : (findStage stages2 .approved).isNone
    · simp only [approvalResult, hla, hf, if_pos]
      exact find?_append_some h
    · simpa [approvalResult, hla, hf] using h

/-- The merge block preserves a successful first-review lookup. -/
theorem findStage_mergeResult {pr : PullRequest} {events : List TimelineEvent}
    {stages3 : List PRTimelineStage} {n : StageName} {fs : PRTimelineStage}
    (h : findStage stages3 n = some fs) : findStage (mergeResult pr events stages3).1 n = some fs := by
  rcases hm : pr.merged_at with _ | t
  · simpa [mergeResult, hm] using h
  · simp only [mergeResult, hm]
    exact find?_append_some h

/-- The issues accumulated by `validateTimeline` extend the incoming
issue list. -/
theorem validateAcc_issues_sub (stages : List PRTimelineStage)
    (reviewCycles : List ReviewCycle) (issues : List String) (confidenceScore : ℚ) :
    ∃ g, (validateAcc stages reviewCycles issues confidenceScore).1 = issues ++ g := by
  have hc : ∀ (acc : List String × ℚ) a, ∃ d, (chronoStep acc a).1 = acc.1 ++ d := by
    intro acc a; unfold chronoStep; split
    · exact ⟨_, rfl⟩
    · exact ⟨[], by simp⟩
  have hd : ∀ (acc : List String × ℚ) s, ∃ d, (durationStep acc s).1 = acc.1 ++ d := by
    intro acc s
    rcases hdp : s.duration_from_previous with _ | d
    · exact ⟨[], by simp [durationStep, hdp]⟩
    · by_cases h0 : d = 0
      · exact ⟨[], by simp [durationStep, hdp, h0]⟩
      · by_cases hneg : d < 0
        · have hnl : ¬(30 < d) := by linarith
          exact ⟨["Negative duration detected for stage " ++ stageNameStr s.stage],
            by simp [durationStep, hdp, h0, hneg, hnl]⟩
        · by_cases hlong : 30 < d
          · exact ⟨["Unusually long duration (" ++ ratToDecimalString d ++
              " days) for stage " ++ stageNameStr s.stage],
              by simp [durationStep, hdp, h0, hneg, hlong]⟩
          · exact ⟨[], by simp [durationStep, hdp, h0, hneg, hlong]⟩
  have hcy : ∀ (acc : List String × ℚ) c, ∃ d, (cycleStep acc c).1 = acc.1 ++ d := by
    intro acc c; unfold cycleStep; split
    · exact ⟨_, rfl⟩
    · exact ⟨[], by simp⟩
  obtain ⟨g1, hg1⟩ := foldl_fst_sub _ hc (stages.zip stages.tail) (issues, confidenceScore)
  obtain ⟨g2, hg2⟩ := foldl_fst_sub _ hd stages
    ((stages.zip stages.tail).foldl chronoStep (issues, confidenceScore))
  obtain ⟨g3, hg3⟩ := foldl_fst_sub _ hcy reviewCycles
    (stages.foldl durationStep
      ((stages.zip stages.tail).foldl chronoStep (issues, confidenceScore)))
  refine ⟨g1 ++ g2 ++ g3, ?_⟩
  unfold validateAcc
  rw [hg3, hg2, hg1]
  simp [List.append_assoc]

/-! ## Claim theorems -/

/-- C1 (counterexample): a merged pull request with zero reviews and
zero comments gets a `merged` stage in addition to `pr_raised` — the
reconstruction does **not** yield exactly one stage for every such PR,
refuting the claim as stated. -/
theorem C1_counterexample :
    (calculateEnhancedPRTimeline prM [] [] (day 3)).stages.length = 2 ∧
    ¬((calculateEnhancedPRTimeline prM [] [] (day 3)).stages.length = 1) := by
  decide

/-- C1 (amended): for every PR with zero reviews and zero comments
**and no merge timestamp**, reconstruction yields exactly one stage,
`pr_raised` at the PR's creation timestamp; and for every PR with zero
reviews and zero comments, `is_completed` equals `status ≠ open`. -/
theorem C1_amended :
    (∀ (pr : PullRequest) (prComments : List Comment) (now : ℤ),
      pr.merged_at = none →
      (calculateEnhancedPRTimeline pr [] prComments now).stages =
        [⟨.pr_raised, pr.created_at, none⟩]) ∧
    (∀ (pr : PullRequest) (prComments : List Comment) (now : ℤ),
      (calculateEnhancedPRTimeline pr [] prComments now).is_completed =
        decide (pr.status ≠ .open_)) := by
  constructor
  · intro pr cs now hm
    obtain ⟨num, title, author, created, updated, merged, status⟩ := pr
    subst hm
    rfl
  · intro pr cs now
    obtain ⟨num, title, author, created, updated, merged, status⟩ := pr
    cases status <;> rfl

/-- C1 (witness): the amended theorem applied to the concrete open,
review-free pull request `prU`. -/
theorem C1_witness :
    (calculateEnhancedPRTimeline prU [] [] (day 1)).stages =
      [⟨.pr_raised, prU.created_at, none⟩] ∧
    (calculateEnhancedPRTimeline prU [] [] (day 1)).is_completed =
      decide (prU.status ≠ .open_) :=
  ⟨C1_amended.1 prU [] (day 1) rfl, C1_amended.2 prU [] (day 1)⟩

unseal Rat.add Rat.mul Rat.inv Rat.sub in
/-- C2: Scenario B.  PR created 2024-01-01, reviews changes_requested
at 2024-01-02, commented at 2024-01-05, approved at 2024-01-06, merged
2024-01-07: exactly one ReviewCycle with duration 3.0 days, stages
include `comments_fixed` at 2024-01-05, `approved` at 2024-01-06 and
`merged` at 2024-01-07, and `approved_to_merged` is 1.0. -/
theorem C2_theorem :
    (calculateEnhancedPRTimeline prB reviewsB [] (day 10)).review_cycles =
      [⟨1, day 1, some (day 4), 3, "bob"⟩] ∧
    (calculateEnhancedPRTimeline prB reviewsB [] (day 10)).stages =
      [⟨.pr_raised, 0, none⟩, ⟨.first_review, day 1, some 1⟩,
       ⟨.comments_fixed, day 4, some 3⟩, ⟨.approved, day 5, some 1⟩,
       ⟨.merged, day 6, some 1⟩] ∧
    (calculateEnhancedPRTimeline prB reviewsB [] (day 10)).stage_durations.approved_to_merged
      = 1 := by
  refine ⟨?_, ?_, ?_⟩ <;> decide

/-- C6: the strategy selector returns `code_only` with medium
confidence exactly when human comments plus human reviews are zero,
`human_discussion` with high confidence exactly when that sum is at
least 5 or there are at least 2 human reviews, and `hybrid` with
medium confidence in every other case. -/
theorem C6_theorem (comments : List Comment) (reviews : List Review) :
    ((determineAnalysisStrategy comments reviews).type = .code_only ∧
      (determineAnalysisStrategy comments reviews).confidence_level = .medium ↔
      (comments.filter isHumanComment).length + (reviews.filter isHumanReview).length = 0) ∧
    ((determineAnalysisStrategy comments reviews).type = .human_discussion ∧
      (determineAnalysisStrategy comments reviews).confidence_level = .high ↔
      5 ≤ (comments.filter isHumanComment).length + (reviews.filter isHumanReview).length ∨
        2 ≤ (reviews.filter isHumanReview).length) ∧
    ((determineAnalysisStrategy comments reviews).type = .hybrid ∧
      (determineAnalysisStrategy comments reviews).confidence_level = .medium ↔
      ¬((comments.filter isHumanComment).length +
          (reviews.filter isHumanReview).length = 0) ∧
      ¬(5 ≤ (comments.filter isHumanComment).length +
          (reviews.filter isHumanReview).length ∨
        2 ≤ (reviews.filter isHumanReview).length)) := by
  simp only [determineAnalysisStrategy]
  split_ifs with h1 h2
  · exact ⟨⟨fun _ => h1, fun _ => ⟨rfl, rfl⟩⟩,
      ⟨fun h => absurd h.1 (by decide), fun h => absurd h (by omega)⟩,
      ⟨fun h => absurd h.1 (by decide), fun h => absurd h1 h.1⟩⟩
  · exact ⟨⟨fun h => absurd h.1 (by decide), fun h => absurd h h1⟩,
      ⟨fun _ => h2, fun _ => ⟨rfl, rfl⟩⟩,
      ⟨fun h => absurd h.1 (by decide), fun h => absurd h2 h.2⟩⟩
  · exact ⟨⟨fun h => absurd h.1 (by decide), fun h => absurd h h1⟩,
      ⟨fun h => absurd h.1 (by decide), fun h => absurd h h2⟩,
      ⟨fun _ => ⟨h1, h2⟩, fun _ => ⟨rfl, rfl⟩⟩⟩

/-- C7 (counterexample): a comment whose trimmed body has fewer than
10 characters but whose raw body does not is classified human — the
length heuristic uses the untrimmed body, refuting the claim as
stated. -/
theorem C7_counterexample :
    isHumanComment paddedComment = true ∧
    (trimChars paddedComment.content.toList).length < 10 := by
  decide

/-- C7 (amended): for every comment whose author matches no bot
pattern and whose body matches no automated-content pattern, if the
**raw (untrimmed)** body is shorter than 10 characters the classifier
labels it bot. -/
theorem C7_amended (c : Comment)
    (hb : ∀ p ∈ BOT_PATTERNS, botPatternMatches c.author p = false)
    (ha : automatedContentMatches (trimChars c.content.toList) = false)
    (hlen : c.content.length < 10) :
    isHumanComment c = false := by
  unfold isHumanComment
  have h1 : BOT_PATTERNS.any (botPatternMatches c.author) = false := by
    rw [List.any_eq_false]
    intro p hp
    simp [hb p hp]
  rw [h1, ha]
  simp [hlen]

/-- C7 (witness): the amended theorem applied to a concrete
human-authored 4-character comment. -/
theorem C7_witness : isHumanComment shortComment = false :=
  C7_amended shortComment (by decide) (by decide) (by decide)

/-- C9: the caller's `prReviews` array is left sorted ascending by
submission time (`Array.prototype.sort` mutates its receiver, modelled
by the `reviews_after` component): after every call it holds a
permutation of the input in ascending order, and for an out-of-order
input it differs from the array that was passed in. -/
theorem C9_theorem :
    (∀ (pr : PullRequest) (rs : List Review) (cs : List Comment) (now : ℤ),
      (calculateEnhancedPRTimeline pr rs cs now).reviews_after =
        List.insertionSort reviewOrder rs ∧
      List.Pairwise reviewOrder (calculateEnhancedPRTimeline pr rs cs now).reviews_after ∧
      List.Perm (calculateEnhancedPRTimeline pr rs cs now).reviews_after rs) ∧
    (calculateEnhancedPRTimeline prA reviewsOutOfOrder [] (day 3)).reviews_after ≠
      reviewsOutOfOrder := by
  constructor
  · intro pr rs cs now
    refine ⟨rfl, ?_, ?_⟩
    · rw [calc_reviews_after]
      exact List.sorted_insertionSort reviewOrder rs
    · rw [calc_reviews_after]
      exact List.perm_insertionSort reviewOrder rs
  · decide

/-- C3: `validateTimeline` subtracts 0.3 per out-of-order adjacent
stage pair, 0.2 per negative `duration_from_previous`, 0.1 per
duration over 30 days and 0.05 per review cycle over 14 days, clamps
the confidence into `[0, 1]`, appends one issue per penalty, grades
data quality high / medium / low by the chained conditions
(confidence ≥ 0.8 with zero issues, else confidence ≥ 0.6 with at
most 2 issues, else low) and is valid iff confidence ≥ 0.5 with fewer
than 5 issues. -/
theorem C3_theorem (stages : List PRTimelineStage) (events : List TimelineEvent)
    (reviewCycles : List ReviewCycle) (issues : List String) (confidenceScore : ℚ) :
    (validateTimeline stages events reviewCycles issues confidenceScore).confidence_score =
      max 0 (min 1 (confidenceScore
        - 3/10 * ((stages.zip stages.tail).countP chronoBad : ℚ)
        - 2/10 * (stages.countP negBad : ℚ)
        - 1/10 * (stages.countP longBad : ℚ)
        - 1/20 * (reviewCycles.countP cycleBad : ℚ))) ∧
    (validateTimeline stages events reviewCycles issues confidenceScore).issues.length =
      issues.length + (stages.zip stages.tail).countP chronoBad + stages.countP negBad +
        stages.countP longBad + reviewCycles.countP cycleBad ∧
    ((validateTimeline stages events reviewCycles issues confidenceScore).data_quality =
        .high ↔
      8/10 ≤ (validateTimeline stages events reviewCycles issues
          confidenceScore).confidence_score ∧
        (validateTimeline stages events reviewCycles issues confidenceScore).issues.length
          = 0) ∧
    ((validateTimeline stages events reviewCycles issues confidenceScore).data_quality =
        .medium ↔
      ¬(8/10 ≤ (validateTimeline stages events reviewCycles issues
            confidenceScore).confidence_score ∧
          (validateTimeline stages events reviewCycles issues
              confidenceScore).issues.length = 0) ∧
        6/10 ≤ (validateTimeline stages events reviewCycles issues
            confidenceScore).confidence_score ∧
        (validateTimeline stages events reviewCycles issues confidenceScore).issues.length
          ≤ 2) ∧
    ((validateTimeline stages events reviewCycles issues confidenceScore).is_valid = true ↔
      1/2 ≤ (validateTimeline stages events reviewCycles issues
          confidenceScore).confidence_score ∧
        (validateTimeline stages events reviewCycles issues confidenceScore).issues.length
          < 5) := by
  obtain ⟨hlen, hconf⟩ := validateAcc_eq stages reviewCycles issues confidenceScore
  set A := validateAcc stages reviewCycles issues confidenceScore with hA
  have hc : (validateTimeline stages events reviewCycles issues
      confidenceScore).confidence_score = max 0 (min 1 A.2) := by rw [validateTimeline_acc]
  have hi : (validateTimeline stages events reviewCycles issues confidenceScore).issues =
      A.1 := by rw [validateTimeline_acc]
  have hv : (validateTimeline stages events reviewCycles issues confidenceScore).is_valid =
      decide (1/2 ≤ A.2 ∧ A.1.length < 5) := by rw [validateTimeline_acc]
  have hq : (validateTimeline stages events reviewCycles issues
      confidenceScore).data_quality =
      (if 8/10 ≤ A.2 ∧ A.1.length = 0 then ConfidenceLevel.high
       else if 6/10 ≤ A.2 ∧ A.1.length ≤ 2 then ConfidenceLevel.medium
       else ConfidenceLevel.low) := by rw [validateTimeline_acc]
  have e80 : (8/10 : ℚ) ≤ max 0 (min 1 A.2) ↔ 8/10 ≤ A.2 :=
    clamp_ge_iff (by norm_num) (by norm_num)
  have e60 : (6/10 : ℚ) ≤ max 0 (min 1 A.2) ↔ 6/10 ≤ A.2 :=
    clamp_ge_iff (by norm_num) (by norm_num)
  have e50 : (1/2 : ℚ) ≤ max 0 (min 1 A.2) ↔ 1/2 ≤ A.2 :=
    clamp_ge_iff (by norm_num) (by norm_num)
  refine ⟨by rw [hc, hconf], by rw [hi]; exact hlen, ?_, ?_, ?_⟩
  · rw [hq, hc, hi, e80]
    split_ifs with h h2
    · exact iff_of_true rfl h
    · exact iff_of_false (by simp) h
    · exact iff_of_false (by simp) h
  · rw [hq, hc, hi, e80, e60]
    split_ifs with h h2
    · exact iff_of_false (by simp) fun hh => hh.1 h
    · exact iff_of_true rfl ⟨h, h2⟩
    · exact iff_of_false (by simp) fun hh => h2 hh.2
  · rw [hv, hc, hi, e50]
    exact decide_eq_true_iff


/-- C10: every reconstructed review cycle with no resolution timestamp
has `duration_days = 0`, so the validator's long-cycle penalty (which
fires only when `duration_days > 14`) can never fire for an unresolved
cycle: `cycleStep` leaves any accumulator unchanged on it. -/
theorem C10_theorem (pr : PullRequest) (rs : List Review) (cs : List Comment) (now : ℤ)
    (c : ReviewCycle)
    (hc : c ∈ (calculateEnhancedPRTimeline pr rs cs now).review_cycles)
    (ha : c.changes_addressed_at = none) :
    c.duration_days = 0 ∧ ∀ acc : List String × ℚ, cycleStep acc c = acc := by
  rw [calc_review_cycles] at hc
  obtain ⟨-, -, h3, -, -⟩ :=
    walkReviews_inv pr (List.insertionSort reviewOrder rs)
      (List.sorted_insertionSort reviewOrder rs)
  have hdur : c.duration_days = 0 := (h3 c hc).2 ha
  refine ⟨hdur, fun acc => ?_⟩
  have hlt : ¬(14 < c.duration_days) := by rw [hdur]; norm_num
  simp [cycleStep, hlt]

unseal Rat.add Rat.mul Rat.inv Rat.sub in
/-- C10 (witness): the theorem applied to the concrete unresolved
cycle produced for `prU` / `reviewsU`. -/
theorem C10_witness :
    (⟨1, day 1, none, 0, "bob"⟩ : ReviewCycle).duration_days = 0 ∧
    cycleStep ([], 1) ⟨1, day 1, none, 0, "bob"⟩ = ([], 1) :=
  ⟨(C10_theorem prU reviewsU [] (day 2) ⟨1, day 1, none, 0, "bob"⟩ (by decide) rfl).1,
   (C10_theorem prU reviewsU [] (day 2) ⟨1, day 1, none, 0, "bob"⟩ (by decide) rfl).2 ([], 1)⟩


/-- C4: a `changes_requested` review with no subsequent approved or
commented review in the sorted sequence resolves to the PR's
last-updated timestamp iff that timestamp is strictly after the
request, else to null; and whenever the last cycle is unresolved the
`comments_fixed` stage is not emitted, the unresolved-resolution issue
is recorded and the confidence is penalized (to at most 0.8). -/
theorem C4_theorem :
    (∀ (pr : PullRequest) (pre post : List Review) (req : Review),
      List.Pairwise reviewOrder (pre ++ req :: post) →
      (∀ r ∈ post, r.review_state ≠ .approved ∧ r.review_state ≠ .commented) →
      findChangesAddressedTime pr req.submitted_at (pre ++ req :: post) =
        if req.submitted_at < pr.updated_at then some pr.updated_at else none) ∧
    (∀ (pr : PullRequest) (rs : List Review) (cs : List Comment) (now : ℤ)
      (c : ReviewCycle),
      (calculateEnhancedPRTimeline pr rs cs now).review_cycles.getLast? = some c →
      c.changes_addressed_at = none →
      (∀ s ∈ (calculateEnhancedPRTimeline pr rs cs now).stages,
        s.stage ≠ .comments_fixed) ∧
      "Changes were requested but no clear resolution detected" ∈
        (calculateEnhancedPRTimeline pr rs cs now).validation.issues ∧
      (calculateEnhancedPRTimeline pr rs cs now).validation.confidence_score ≤ 8/10) := by
  constructor
  · intro pr pre post req hp hpost
    have hfilter : (pre ++ req :: post).filter (fun r =>
        decide (req.submitted_at < r.submitted_at) &&
          (r.review_state == ReviewState.approved ||
            r.review_state == ReviewState.commented)) = [] := by
      rw [List.filter_eq_nil_iff]
      intro r hr
      rcases List.mem_append.mp hr with hpre | hmid
      · have hle : reviewOrder r req := by
          obtain ⟨-, -, hrel⟩ := List.pairwise_append.mp hp
          exact hrel r hpre req (List.mem_cons_self req post)
        simp only [Bool.and_eq_true, decide_eq_true_eq, not_and]
        intro hlt
        exact absurd hlt (not_lt.mpr hle)
      · rcases List.mem_cons.mp hmid with rfl | hpost2
        · simp
        · obtain ⟨hna, hnc⟩ := hpost r hpost2
          simp only [Bool.and_eq_true, Bool.or_eq_true, beq_iff_eq, not_and]
          intro _ hor
          rcases hor with h | h
          · exact hna h
          · exact hnc h
    simp only [findChangesAddressedTime, hfilter]
  · intro pr rs cs now c hlast ha
    rw [calc_review_cycles] at hlast
    obtain ⟨i1, i2, i3, i4, i5⟩ :=
      walkReviews_inv pr (List.insertionSort reviewOrder rs)
        (List.sorted_insertionSort reviewOrder rs)
    have hne : (walkReviews pr (List.insertionSort reviewOrder rs)).reviewCycles ≠ [] := by
      intro h0; rw [h0] at hlast; simp at hlast
    have hcf := @commentsFixedResult_unresolved pr _ _ (i5 hne) hlast ha
    refine ⟨?_, ?_, ?_⟩
    · intro s hs
      rw [calc_stages] at hs
      rcases mem_mergeResult hs with hs2 | hmg
      · rcases mem_approvalResult hs2 with hs3 | hap
        · rw [hcf] at hs3
          exact i4 s hs3
        · rw [hap]; simp
      · rw [hmg]; simp
    · rw [calc_validation, validateTimeline_acc]
      simp only [hcf]
      obtain ⟨g, hg⟩ := validateAcc_issues_sub
        (calculateEnhancedPRTimeline pr rs cs now).stages
        (walkReviews pr (List.insertionSort reviewOrder rs)).reviewCycles
        ["Changes were requested but no clear resolution detected"] (1 - 2/10)
      rw [hg]
      exact List.mem_append_left _ (List.mem_singleton_self _)
    · rw [calc_validation, validateTimeline_acc]
      simp only [hcf]
      have hconf := (validateAcc_eq
        (calculateEnhancedPRTimeline pr rs cs now).stages
        (walkReviews pr (List.insertionSort reviewOrder rs)).reviewCycles
        ["Changes were requested but no clear resolution detected"] (1 - 2/10)).2
      have hx : (validateAcc
          (calculateEnhancedPRTimeline pr rs cs now).stages
          (walkReviews pr (List.insertionSort reviewOrder rs)).reviewCycles
          ["Changes were requested but no clear resolution detected"] (1 - 2/10)).2
          ≤ 8/10 := by
        rw [hconf]
        have t1 : (0 : ℚ) ≤ 3/10 * ((((calculateEnhancedPRTimeline pr rs cs now).stages.zip
            (calculateEnhancedPRTimeline pr rs cs now).stages.tail).countP chronoBad : ℕ) : ℚ) := by
          positivity
        have t2 : (0 : ℚ) ≤ 2/10 *
            (((calculateEnhancedPRTimeline pr rs cs now).stages.countP negBad : ℕ) : ℚ) := by
          positivity
        have t3 : (0 : ℚ) ≤ 1/10 *
            (((calculateEnhancedPRTimeline pr rs cs now).stages.countP longBad : ℕ) : ℚ) := by
          positivity
        have t4 : (0 : ℚ) ≤ 1/20 *
            (((walkReviews pr (List.insertionSort reviewOrder rs)).reviewCycles.countP
              cycleBad : ℕ) : ℚ) := by
          positivity
        linarith
      exact le_trans (max_le (by norm_num) (le_trans (min_le_right _ _) hx)) (le_refl _)


unseal Rat.add Rat.mul Rat.inv Rat.sub in
/-- C4 (witness): the theorem applied to `prU` / `reviewsU`: the lone
changes_requested review at 2024-01-02 has no subsequent review and
`updated_at` (the creation instant) is not after it, so the resolution
is null; the unresolved-cycle issue is recorded and the confidence
penalized. -/
theorem C4_witness :
    findChangesAddressedTime prU (day 1) reviewsU = none ∧
    "Changes were requested but no clear resolution detected" ∈
      (calculateEnhancedPRTimeline prU reviewsU [] (day 2)).validation.issues ∧
    (calculateEnhancedPRTimeline prU reviewsU [] (day 2)).validation.confidence_score
      ≤ 8/10 := by
  refine ⟨?_, ?_, ?_⟩
  · have h := C4_theorem.1 prU [] []
      ⟨1, 9, "bob", .changes_requested, day 1, true, none⟩ (by simp) (by simp)
    simpa [reviewsU, prU, day] using h
  · exact (C4_theorem.2 prU reviewsU [] (day 2) ⟨1, day 1, none, 0, "bob"⟩
      (by decide) rfl).2.1
  · exact (C4_theorem.2 prU reviewsU [] (day 2) ⟨1, day 1, none, 0, "bob"⟩
      (by decide) rfl).2.2


unseal Rat.add Rat.mul Rat.inv Rat.sub in
/-- C5 (counterexample): for a PR whose only review is an approval
(Scenario A), the `approved` stage is anchored to the `first_review`
stage — which is the same review — so the anchor timestamp (per the
code's `comments_fixed` → `first_review` → creation lookup) equals the
stage's own timestamp and the recorded duration is a self-distance of
zero, refuting the claim as stated. -/
theorem C5_counterexample :
    ((⟨.approved, day 2, some 0⟩ : PRTimelineStage) ∈
      (calculateEnhancedPRTimeline prA reviewsA [] (day 3)).stages) ∧
    (((findStage (calculateEnhancedPRTimeline prA reviewsA [] (day 3)).stages
        .comments_fixed).map (·.timestamp)).getD
      ((((findStage (calculateEnhancedPRTimeline prA reviewsA [] (day 3)).stages
        .first_review).map (·.timestamp)).getD prA.created_at)) = day 2) := by
  decide

/-- C5 (amended): the anchor of an emitted stage can coincide with the
stage's own timestamp (zero self-distance), as the counterexample
shows for `approved`; the guarantee that does hold is for the
`comments_fixed` stage: its anchor (the `first_review` timestamp, else
PR creation) is always strictly earlier than its own timestamp, and
its recorded duration is computed from that anchor. -/
theorem C5_amended (pr : PullRequest) (rs : List Review) (cs : List Comment) (now : ℤ)
    (s : PRTimelineStage)
    (hs : s ∈ (calculateEnhancedPRTimeline pr rs cs now).stages)
    (hst : s.stage = .comments_fixed) :
    (((findStage (calculateEnhancedPRTimeline pr rs cs now).stages .first_review).map
        (·.timestamp)).getD pr.created_at) < s.timestamp ∧
    s.duration_from_previous = some (calculateDaysDiff
      (((findStage (calculateEnhancedPRTimeline pr rs cs now).stages .first_review).map
        (·.timestamp)).getD pr.created_at) s.timestamp) := by
  obtain ⟨i1, i2, i3, i4, i5⟩ :=
    walkReviews_inv pr (List.insertionSort reviewOrder rs)
      (List.sorted_insertionSort reviewOrder rs)
  set w := walkReviews pr (List.insertionSort reviewOrder rs) with hw
  rw [calc_stages] at hs
  rcases mem_mergeResult hs with hs2 | hmg
  swap
  · rw [hst] at hmg; cases hmg
  rcases mem_approvalResult hs2 with hs3 | hap
  swap
  · rw [hst] at hap; cases hap
  rcases commentsFixedResult_stages_cases pr w with hceq | ⟨c, a, hlast, haddr, hceq⟩
  · rw [hceq] at hs3
    exact absurd hst (i4 s hs3)
  · rw [hceq] at hs3
    rcases List.mem_append.mp hs3 with hs4 | hs4
    · exact absurd hst (i4 s hs4)
    · obtain rfl := List.mem_singleton.mp hs4
      have hne : w.reviewCycles ≠ [] := by
        intro h0; rw [h0] at hlast; simp at hlast
      have hfound : w.firstReviewFound = true := by
        rcases hfb : w.firstReviewFound
        · obtain ⟨-, hcyc0, -⟩ := i1 hfb
          exact absurd hcyc0 hne
        · rfl
      obtain ⟨fs, hfind, -, hcycb⟩ := i2 hfound
      have hcmem : c ∈ w.reviewCycles := mem_of_getLast?_eq_some hlast
      have hreq : fs.timestamp ≤ c.changes_requested_at := hcycb c hcmem
      have hlt : c.changes_requested_at < a := ((i3 c hcmem).1 a haddr).1
      have hfind4 : findStage (calculateEnhancedPRTimeline pr rs cs now).stages
          .first_review = some fs := by
        rw [calc_stages]
        apply findStage_mergeResult
        apply findStage_approvalResult
        rw [hceq]
        unfold findStage at hfind ⊢
        exact find?_append_some hfind
      refine ⟨?_, ?_⟩
      · simp only [hfind4, Option.map_some', Option.getD_some]
        exact lt_of_le_of_lt hreq hlt
      · simp only [hfind4, hfind, Option.map_some', Option.getD_some]

unseal Rat.add Rat.mul Rat.inv Rat.sub in
/-- C5 (witness): the amended theorem applied to Scenario B, whose
`comments_fixed` stage at 2024-01-05 is anchored to the strictly
earlier `first_review` timestamp (2024-01-02). -/
theorem C5_witness :
    (((findStage (calculateEnhancedPRTimeline prB reviewsB [] (day 10)).stages
        .first_review).map (·.timestamp)).getD prB.created_at) < (day 4 : ℤ) :=
  (C5_amended prB reviewsB [] (day 10) ⟨.comments_fixed, day 4, some 3⟩
    (by decide) rfl).1


/-- C8: a freshly created cache entry is valid at the same instant
with the dataset unchanged; it is invalid at any wall-clock time at or
past the 2-hour expiry; and it is invalid whenever the dataset has
changed so that the recomputed version hash differs from the stored
one. -/
theorem C8_theorem (d : CommentCategorizationResponse) (st : DataStore) (now : ℤ) :
    isCacheValid st now (some (createCacheEntry d st now)) = true ∧
    (∀ (st2 : DataStore) (now2 : ℤ), now + cacheExpiryMs ≤ now2 →
      isCacheValid st2 now2 (some (createCacheEntry d st now)) = false) ∧
    (∀ (st2 : DataStore) (now2 : ℤ),
      generateDataVersionHash st2 ≠ generateDataVersionHash st →
      isCacheValid st2 now2 (some (createCacheEntry d st now)) = false) := by
  refine ⟨?_, ?_, ?_⟩
  · have h1 : now < now + cacheExpiryMs := by unfold cacheExpiryMs; omega
    unfold isCacheValid createCacheEntry
    simp [h1]
  · intro st2 now2 h
    have h1 : ¬(now2 < now + cacheExpiryMs) := not_lt.mpr h
    unfold isCacheValid createCacheEntry
    simp [h1]
  · intro st2 now2 hne
    have h1 : (generateDataVersionHash st == generateDataVersionHash st2) = false :=
      beq_eq_false_iff_ne.mpr fun h => hne h.symm
    unfold isCacheValid createCacheEntry
    simp [h1]

set_option maxRecDepth 100000 in
/-- C8 (witness): the theorem at a concrete payload, the empty store
and time 0; the expiry conjunct at exactly the 2-hour mark; the
version conjunct at a store with one pull request, whose hash is
computed to differ. -/
theorem C8_witness :
    isCacheValid storeEmpty 0 (some (createCacheEntry payloadX storeEmpty 0)) = true ∧
    isCacheValid storeEmpty 7200000 (some (createCacheEntry payloadX storeEmpty 0)) = false ∧
    isCacheValid storeOne 10 (some (createCacheEntry payloadX storeEmpty 0)) = false :=
  ⟨(C8_theorem payloadX storeEmpty 0).1,
   (C8_theorem payloadX storeEmpty 0).2.1 storeEmpty 7200000 (by decide),
   (C8_theorem payloadX storeEmpty 0).2.2 storeOne 10 (by decide)⟩


end CPD
